import Mathlib

/-!
Verification development for the browser-resident network-monitoring
dashboard's threat-detection core.

The definitions below are a shallow embedding of the TypeScript sources:
the machine-learning engine (DecisionTree, RandomForest, IsolationTree,
IsolationForest, MLThreatDetection) and the security event pipeline
(SecurityMonitor.analyzeRequest).  JavaScript numbers are modelled as
elements of a linear ordered field (instantiated at the rationals where
everything is exact and at the reals where the code uses logarithms and
real exponentials).  Fallible code paths (a JavaScript runtime exception,
or dereferencing a null child) are modelled with Option.  Environment
randomness (bootstrap resampling, random isolation splits) is modelled by
universally quantified oracle parameters.
-/

set_option maxHeartbeats 1000000
set_option maxRecDepth 8000

namespace NetMon

/-- Insertion of a value into an ascending-sorted list. -/
def insertLe {β : Type} [LinearOrder β] (x : β) : List β → List β
  | [] => [x]
  | y :: ys => if x ≤ y then x :: y :: ys else y :: insertLe x ys

/-- Ascending insertion sort.  It models both the ascending numeric key
order in which Object.entries enumerates integer-like keys and the
numeric sort((a, b) => a - b) of feature values; keys are distinct and
ties between equal feature values produce equal midpoints, so any
correct ascending sort yields the same observable behavior. -/
def sortLe {β : Type} [LinearOrder β] : List β → List β
  | [] => []
  | x :: xs => insertLe x (sortLe xs)

/-- One labelled training sample: a feature vector plus a label
(0 = normal, 1 = threat).  Embeds the TrainingData interface. -/
structure TrainingData (α : Type) where
  features : List α
  label : ℕ
  deriving Repr, DecidableEq

/-- The runtime value stored in a leaf's prediction field.  majorityClass
is declared to return a number, but its seed-less reduce over
Object.entries actually produces either a key string (written str l for
the decimal string of l) or an Object.entries pair (written entry l c for
the array [String(l), c]); the as-unknown-as-number cast does not change
the value.  num n is a genuine JavaScript number (the field's initial
value 0, and the only form the strict comparison with 1 can match). -/
inductive JSValue where
  | num (n : ℕ) : JSValue
  | str (label : ℕ) : JSValue
  | entry (label count : ℕ) : JSValue
  deriving Repr, DecidableEq

/-- parseInt applied to a reduce accumulator: a key string "l" parses to
l; an entry array [String(l), c] stringifies to "l,c" and parseInt stops
at the comma, also yielding l. -/
def JSValue.parseIntVal : JSValue → ℕ
  | .num n => n
  | .str l => l
  | .entry l _ => l

/-- A decision tree as stored in the DecisionTree class: a node is either
a leaf carrying a prediction value (the majorityClass result), an
internal node carrying a feature index, a threshold and the two children,
or the null placeholder (the class fields leftChild/rightChild are
nullable). -/
inductive DecisionTree (α : Type) where
  | null : DecisionTree α
  | leaf (prediction : JSValue) : DecisionTree α
  | node (featureIndex : ℕ) (threshold : α)
      (leftChild rightChild : DecisionTree α) : DecisionTree α
  deriving Repr, DecidableEq

namespace DecisionTree

variable {α : Type} [LinearOrderedField α]

/-- Number of occurrences of a label in the data (an entry of the counts
record built by majorityClass / giniImpurity). -/
def countLabel (data : List (TrainingData α)) (l : ℕ) : ℕ :=
  (data.filter (fun s => s.label = l)).length

/-- The entries of the counts record, in ascending label order: JavaScript
object keys that look like array indices are enumerated in ascending
numeric order by Object.entries. -/
def labelCounts (data : List (TrainingData α)) : List (ℕ × ℕ) :=
  (sortLe ((data.map TrainingData.label).dedup)).map
    (fun l => (l, countLabel data l))

/-- majorityClass: the seed-less reduce over Object.entries starts from
the first entry — an array value — and at each step keeps the accumulator
only when the count looked up under its parsed key strictly exceeds the
count looked up under the next entry's key, otherwise continuing with the
next entry's key string.  The result is therefore an entry array (always,
when counts has a single key) or a key string — never a number, despite
the cast.  Reducing an empty collection throws in JavaScript, modelled by
none. -/
def majorityClass (data : List (TrainingData α)) : Option JSValue :=
  match labelCounts data with
  | [] => none
  | c :: cs => some (cs.foldl
      (fun a b =>
        if countLabel data a.parseIntVal > countLabel data b.1
        then a else .str b.1)
      (.entry c.1 c.2))

/-- isPure: data is empty or every sample carries the first sample's
label. -/
def isPure : List (TrainingData α) → Bool
  | [] => true
  | d :: ds => (d :: ds).all (fun s => decide (s.label = d.label))

/-- The splitData test: the selected feature is at most the threshold.
Out-of-range feature access yields undefined in JavaScript and a
comparison with undefined is false, so such samples fall to the right
half (the repository only ever supplies full 11-slot vectors). -/
def featureLE (s : TrainingData α) (featureIndex : ℕ) (threshold : α) : Bool :=
  match s.features.get? featureIndex with
  | some x => decide (x ≤ threshold)
  | none => false

/-- splitData, left half. -/
def splitLeft (data : List (TrainingData α)) (featureIndex : ℕ) (threshold : α) :
    List (TrainingData α) :=
  data.filter (fun s => featureLE s featureIndex threshold)

/-- splitData, right half. -/
def splitRight (data : List (TrainingData α)) (featureIndex : ℕ) (threshold : α) :
    List (TrainingData α) :=
  data.filter (fun s => ! featureLE s featureIndex threshold)

/-- giniImpurity: 1 minus the sum of squared class proportions; 0 on the
empty set. -/
def giniImpurity (data : List (TrainingData α)) : α :=
  if data.length = 0 then 0
  else 1 - (((data.map TrainingData.label).dedup).map
    (fun l => ((countLabel data l : α) / (data.length : α)) ^ 2)).sum

/-- calculateGini: the size-weighted impurity of the two halves of the
split; Infinity (modelled as the top element) when either half is
empty. -/
def calculateGini (data : List (TrainingData α)) (featureIndex : ℕ) (threshold : α) :
    WithTop α :=
  let left := splitLeft data featureIndex threshold
  let right := splitRight data featureIndex threshold
  if left.length = 0 ∨ right.length = 0 then ⊤
  else ((left.length : α) / (data.length : α) * giniImpurity left
      + (right.length : α) / (data.length : α) * giniImpurity right : α)

/-- Number of features: data[0]?.features.length with 0 default. -/
def numFeatures (data : List (TrainingData α)) : ℕ :=
  (data.head?.map (fun s => s.features.length)).getD 0

/-- The candidate (featureIndex, threshold) pairs enumerated by
findBestSplit: for each feature, the midpoints of consecutive sorted
feature values.  A missing feature value is taken as 0 here; in
JavaScript an undefined value gives the sort comparator NaN and an
implementation-ordered result, a case the repository never exercises
(full 11-slot vectors), and which only influences which candidates are
examined, not the soundness facts proved below. -/
def candidateSplits (data : List (TrainingData α)) : List (ℕ × α) :=
  (List.range (numFeatures data)).flatMap (fun featureIndex =>
    let values := sortLe (data.map (fun s => s.features.getD featureIndex 0))
    (List.range (values.length - 1)).map (fun i =>
      (featureIndex, (values.getD i 0 + values.getD (i + 1) 0) / 2)))

/-- The running best split of findBestSplit (bestGini starts at
Infinity). -/
def bestGiniOf (best : Option (ℕ × α × WithTop α)) : WithTop α :=
  match best with
  | none => ⊤
  | some b => b.2.2

/-- findBestSplit: fold over the candidates keeping the strictly best
gini; returns null when no candidate beats Infinity. -/
def findBestSplit (data : List (TrainingData α)) : Option (ℕ × α × WithTop α) :=
  (candidateSplits data).foldl (fun best c =>
    let g := calculateGini data c.1 c.2
    if g < bestGiniOf best then some (c.1, c.2, g) else best) none

/-- train: become a leaf when the depth is exhausted, the sample count is
below minSamples, the data is pure, or no split is found; otherwise split
and train both children.  A JavaScript exception (majorityClass reducing
an empty collection) propagates as none. -/
def train (data : List (TrainingData α)) (maxDepth minSamples : ℕ) :
    Option (DecisionTree α) :=
  match maxDepth with
  | 0 => (majorityClass data).map DecisionTree.leaf
  | maxDepth' + 1 =>
    if data.length < minSamples ∨ isPure data then
      (majorityClass data).map DecisionTree.leaf
    else
      match findBestSplit data with
      | none => (majorityClass data).map DecisionTree.leaf
      | some (featureIndex, threshold, _) =>
        match train (splitLeft data featureIndex threshold) maxDepth' minSamples,
              train (splitRight data featureIndex threshold) maxDepth' minSamples with
        | some l, some r => some (DecisionTree.node featureIndex threshold l r)
        | _, _ => none

/-- predict: walk the tree; reaching a null child (the non-null assertion
on leftChild/rightChild failing) is modelled by none.  An out-of-range
feature compares false with the threshold, so the walk continues right,
matching featureLE. -/
def predict : DecisionTree α → List α → Option JSValue
  | .null, _ => none
  | .leaf p, _ => some p
  | .node featureIndex threshold l r, v =>
    match v.get? featureIndex with
    | some x => if x ≤ threshold then predict l v else predict r v
    | none => predict r v

end DecisionTree

/-- The RandomForest class state: the trained trees and the configured
ensemble size. -/
structure RandomForest (α : Type) where
  trees : List (DecisionTree α)
  numTrees : ℕ

namespace RandomForest

variable {α : Type} [LinearOrderedField α]

/-- The per-tree predictions computed by RandomForest.predict. -/
def treePredictions (rf : RandomForest α) (features : List α) :
    List (Option JSValue) :=
  rf.trees.map (fun t => DecisionTree.predict t features)

/-- threatCount: the number of trees whose prediction is strictly equal
(no coercion) to the number 1.  Trained leaves store a key string or an
entry array, never a number, so no trained tree's vote can match. -/
def threatCount (rf : RandomForest α) (features : List α) : ℕ :=
  ((treePredictions rf features).filter
    (fun p => p = some (JSValue.num 1))).length

/-- RandomForest.predict: majority vote (strictly more than numTrees / 2
votes for threat) and confidence scaled distance of the threat fraction
from one half. -/
def predict (rf : RandomForest α) (features : List α) : ℕ × α :=
  let tc := threatCount rf features
  (if (tc : α) > (rf.numTrees : α) / 2 then 1 else 0,
   |(tc : α) / (rf.numTrees : α) - 0.5| * 2)

end RandomForest

/-- An isolation tree: external nodes store the size of the data slice
they were built from, internal nodes store the random split.  The
constructor always assigns both children of an internal node, so the
children are total here; pathLength never reaches a null child on a tree
produced by the constructor. -/
inductive IsolationTree where
  | ext (size : ℕ) : IsolationTree
  | node (splitFeature : ℕ) (splitValue : ℝ)
      (left right : IsolationTree) : IsolationTree

/-- averagePathLength, the analytic correction c(n): identical private
helpers appear in both IsolationTree and IsolationForest. -/
noncomputable def averagePathLength (n : ℕ) : ℝ :=
  if n ≤ 1 then 0
  else 2 * (Real.log ((n : ℝ) - 1) + 0.5772156649) - 2 * ((n : ℝ) - 1) / (n : ℝ)

namespace IsolationTree

/-- pathLength: walk the tree accumulating depth; at an external node add
the average-path-length correction for the stored size.  A comparison
with an undefined (out of range) coordinate is false in JavaScript, so
such points fall to the right child. -/
noncomputable def pathLength : IsolationTree → List ℝ → ℕ → ℝ
  | .ext size, _, currentDepth => (currentDepth : ℝ) + averagePathLength size
  | .node splitFeature splitValue l r, point, currentDepth =>
    match point.get? splitFeature with
    | some x =>
      if x < splitValue then pathLength l point (currentDepth + 1)
      else pathLength r point (currentDepth + 1)
    | none => pathLength r point (currentDepth + 1)

end IsolationTree

/-- The IsolationForest class state. -/
structure IsolationForest where
  trees : List IsolationTree
  numTrees : ℕ
  sampleSize : ℕ

namespace IsolationForest

/-- The mean of the per-tree path lengths of a point. -/
noncomputable def meanPathLength (f : IsolationForest) (point : List ℝ) : ℝ :=
  let pathLengths := f.trees.map (fun t => IsolationTree.pathLength t point 0)
  pathLengths.sum / (pathLengths.length : ℝ)

/-- The anomaly score 2 ^ (- mean path length / c(sample size)). -/
noncomputable def anomalyScore (f : IsolationForest) (point : List ℝ) : ℝ :=
  (2 : ℝ) ^ (-(meanPathLength f point / averagePathLength f.sampleSize))

/-- IsolationForest.predict: the anomaly score and the threshold flag. -/
noncomputable def predict (f : IsolationForest) (point : List ℝ) : ℝ × Bool :=
  (anomalyScore f point,
   if anomalyScore f point > 0.6 then true else false)

end IsolationForest

/-- The NetworkFeature interface: a timestamp plus the 11 numeric feature
slots. -/
structure NetworkFeature where
  timestamp : ℤ
  requestCount : ℝ
  failedRequests : ℝ
  responseTime : ℝ
  dataTransferred : ℝ
  uniqueDomains : ℝ
  httpErrors : ℝ
  suspiciousPatterns : ℝ
  memoryUsage : ℝ
  cpuUsage : ℝ
  clickRate : ℝ
  navigationRate : ℝ

/-- The raw metrics snapshot consumed by extractFeatures (the fields read
from the networkData argument). -/
structure RawMetrics where
  requestCount : ℝ
  failedRequests : ℝ
  averageResponseTime : ℝ
  totalDataTransferred : ℝ
  uniqueDomains : ℝ
  httpErrors : ℝ
  suspiciousPatterns : ℝ
  memoryUsage : ℝ
  cpuUsage : ℝ
  clickRate : ℝ
  navigationRate : ℝ

/-- Risk levels of a ThreatPrediction. -/
inductive RiskLevel where
  | low | medium | high | critical
  deriving Repr, DecidableEq

/-- Algorithm tag of a ThreatPrediction. -/
inductive AlgorithmTag where
  | random_forest | isolation_forest | ensemble
  deriving Repr, DecidableEq

/-- The ThreatPrediction interface. -/
structure ThreatPrediction where
  isAnomaly : Bool
  threatScore : ℝ
  confidence : ℝ
  riskLevel : RiskLevel
  features : List String
  algorithm : AlgorithmTag

/-- The mutable state of the MLThreatDetection class.  The field
lastTrainedAt is specification instrumentation only: it records the clock
value at the most recent successful trainModels call (the TypeScript
class stores no such timestamp), so that claims about the reported
lastTrainingTime can be stated. -/
structure MLThreatDetection where
  randomForest : RandomForest ℝ
  isolationForest : IsolationForest
  trainingData : List (TrainingData ℝ)
  featureHistory : List NetworkFeature
  isTraining : Bool
  modelTrained : Bool
  lastTrainedAt : Option ℤ

/-- The environment randomness consumed by trainModels: bootstrap
resampling inside RandomForest.train and the random splits inside the
IsolationTree constructor.  Modelled as an oracle producing the trained
ensembles from the training data; no claim in this development depends on
the structure of freshly trained forests beyond their existence. -/
structure TrainOracle where
  rfTrees : List (TrainingData ℝ) → List (DecisionTree ℝ)
  isoTrees : List (List ℝ) → List IsolationTree

namespace MLThreatDetection

/-- extractFeatures: copy the named counters of the snapshot into a
NetworkFeature stamped with the current time.  (The recentHistory local
in the source is computed and never used.) -/
def extractFeatures (now : ℤ) (networkData : RawMetrics) : NetworkFeature :=
  { timestamp := now
    requestCount := networkData.requestCount
    failedRequests := networkData.failedRequests
    responseTime := networkData.averageResponseTime
    dataTransferred := networkData.totalDataTransferred
    uniqueDomains := networkData.uniqueDomains
    httpErrors := networkData.httpErrors
    suspiciousPatterns := networkData.suspiciousPatterns
    memoryUsage := networkData.memoryUsage
    cpuUsage := networkData.cpuUsage
    clickRate := networkData.clickRate
    navigationRate := networkData.navigationRate }

/-- The fixed 11-slot positional encoding of a NetworkFeature, used
identically by detectThreats and retrainWithFeedback. -/
def featureVector (f : NetworkFeature) : List ℝ :=
  [f.requestCount, f.failedRequests, f.responseTime, f.dataTransferred,
   f.uniqueDomains, f.httpErrors, f.suspiciousPatterns, f.memoryUsage,
   f.cpuUsage, f.clickRate, f.navigationRate]

/-- The neutral prediction returned before the models are trained. -/
def neutralPrediction : ThreatPrediction :=
  { isAnomaly := false
    threatScore := 0
    confidence := 0
    riskLevel := .low
    features := []
    algorithm := .ensemble }

/-- The contributing-feature labels of detectThreats: independent
threshold checks against the raw feature values, pushed in source
order. -/
noncomputable def contributingFeatures (f : NetworkFeature) : List String :=
  (if f.failedRequests > 10 then ["High failed requests"] else [])
  ++ (if f.requestCount > 100 then ["Excessive request volume"] else [])
  ++ (if f.responseTime > 1000 then ["Slow response times"] else [])
  ++ (if f.suspiciousPatterns > 5 then ["Suspicious patterns detected"] else [])
  ++ (if f.memoryUsage > 80 then ["High memory usage"] else [])
  ++ (if f.clickRate > 20 then ["Abnormal click patterns"] else [])

/-- detectThreats: neutral answer when untrained; otherwise extract the
feature vector, append it to the rolling five-minute history, run both
forests and fuse their outputs. -/
noncomputable def detectThreats (now : ℤ) (s : MLThreatDetection)
    (networkData : RawMetrics) : ThreatPrediction × MLThreatDetection :=
  if s.modelTrained then
    let f := extractFeatures now networkData
    let history := (s.featureHistory ++ [f]).filter
      (fun g => now - g.timestamp < 300000)
    let v := featureVector f
    let rfResult := s.randomForest.predict v
    let ifResult := s.isolationForest.predict v
    let threatScore := (rfResult.1 : ℝ) * 0.6 + ifResult.1 * 0.4
    let confidence := (rfResult.2 + (if ifResult.1 > 0.6 then (1 : ℝ) else 0)) / 2
    let isAnomaly := decide (rfResult.1 = 1) || ifResult.2
    let riskLevel : RiskLevel :=
      if threatScore > 0.8 then .critical
      else if threatScore > 0.6 then .high
      else if threatScore > 0.4 then .medium
      else .low
    (⟨isAnomaly, threatScore, confidence, riskLevel,
      contributingFeatures f, .ensemble⟩,
     { s with featureHistory := history })
  else (neutralPrediction, s)

/-- trainModels: train both forests from the current training set.  When
the training set is empty, RandomForest.train throws (the first
DecisionTree.train reduces an empty counts collection) after having
already cleared the tree list; the exception is caught and modelTrained
is left unchanged.  Training on nonempty data never throws. -/
noncomputable def trainModels (oracle : TrainOracle) (now : ℤ)
    (s : MLThreatDetection) : MLThreatDetection :=
  if s.isTraining then s
  else if s.trainingData.isEmpty then
    { s with randomForest := { trees := [], numTrees := s.randomForest.numTrees } }
  else
    { s with
      randomForest :=
        { trees := oracle.rfTrees s.trainingData
          numTrees := s.randomForest.numTrees }
      isolationForest :=
        { trees := oracle.isoTrees (s.trainingData.map TrainingData.features)
          numTrees := s.isolationForest.numTrees
          sampleSize := s.isolationForest.sampleSize }
      modelTrained := true
      lastTrainedAt := some now }

/-- retrainWithFeedback: append the labelled sample, trim to the most
recent 800 entries when the set exceeds 1000, and retrain both models
when the resulting size is a multiple of 50.  The returned Boolean is
trace instrumentation recording whether trainModels ran. -/
noncomputable def retrainWithFeedback (oracle : TrainOracle) (now : ℤ)
    (s : MLThreatDetection) (features : NetworkFeature) (isThreat : Bool) :
    MLThreatDetection × Bool :=
  let appended := s.trainingData
    ++ [⟨featureVector features, if isThreat then 1 else 0⟩]
  let kept := if appended.length > 1000
    then appended.drop (appended.length - 800) else appended
  let s1 := { s with trainingData := kept }
  if kept.length % 50 = 0 then (trainModels oracle now s1, true) else (s1, false)

/-- The model statistics readout. -/
structure ModelStats where
  trainingDataSize : ℕ
  modelTrained : Bool
  featureHistorySize : ℕ
  lastTrainingTime : Option ℤ

/-- getModelStats: a read-only snapshot; the reported lastTrainingTime is
new Date() — the clock at the moment of the query — whenever the model is
trained, and null otherwise. -/
def getModelStats (now : ℤ) (s : MLThreatDetection) :
    ModelStats × MLThreatDetection :=
  ({ trainingDataSize := s.trainingData.length
     modelTrained := s.modelTrained
     featureHistorySize := s.featureHistory.length
     lastTrainingTime := if s.modelTrained then some now else none }, s)

/-- A sequence of retrainWithFeedback calls, counting how many of them
triggered a retraining cycle. -/
noncomputable def runFeedback (oracle : TrainOracle) (now : ℤ)
    (s : MLThreatDetection) :
    List (NetworkFeature × Bool) → MLThreatDetection × ℕ
  | [] => (s, 0)
  | (f, b) :: rest =>
    let step := retrainWithFeedback oracle now s f b
    let tail := runFeedback oracle now step.1 rest
    (tail.1, (if step.2 then 1 else 0) + tail.2)

end MLThreatDetection

/-- SecurityEvent types. -/
inductive EventType where
  | suspicious_request | failed_auth | unusual_activity | resource_abuse
  deriving Repr, DecidableEq

/-- SecurityEvent severities. -/
inductive Severity where
  | low | medium | high | critical
  deriving Repr, DecidableEq

/-- The classifying fields of a SecurityEvent as created by the pipeline.
The generated id, the wall-clock timestamp, the free-form description and
details, and the attached ML prediction do not influence whether or when
an event is created and are omitted from the embedding. -/
structure SecurityEvent where
  etype : EventType
  severity : Severity
  source : String
  deriving Repr, DecidableEq

/-- The SecurityMonitor state observed by analyzeRequest: the per-domain
counters, the running network metrics it touches, the capped event
buffer, and an instrumentation trace of every event ever created (the
buffer alone forgets events once more than 100 have been created). -/
structure SecurityMonitor where
  requestCounts : String → ℕ
  failedAttempts : String → ℕ
  requestCount : ℕ
  failedRequests : ℕ
  totalResponseTime : ℚ
  uniqueDomains : List String
  httpErrors : ℕ
  suspiciousPatterns : ℕ
  events : List SecurityEvent
  trace : List SecurityEvent

namespace SecurityMonitor

/-- The monitor's initial state. -/
def init : SecurityMonitor :=
  { requestCounts := fun _ => 0
    failedAttempts := fun _ => 0
    requestCount := 0
    failedRequests := 0
    totalResponseTime := 0
    uniqueDomains := []
    httpErrors := 0
    suspiciousPatterns := 0
    events := []
    trace := [] }

/-- Pointwise update of a per-domain counter map. -/
def setCount (m : String → ℕ) (domain : String) (v : ℕ) : String → ℕ :=
  fun d => if d = domain then v else m d

/-- The Set.add of uniqueDomains. -/
def addDomain (l : List String) (domain : String) : List String :=
  if domain ∈ l then l else l ++ [domain]

/-- createSecurityEvent: append the event to the buffer, evicting the
oldest entry when the buffer exceeds 100, and record it in the
instrumentation trace. -/
def createSecurityEvent (s : SecurityMonitor) (e : SecurityEvent) :
    SecurityMonitor :=
  let pushed := s.events ++ [e]
  { s with
    events := if pushed.length > 100 then pushed.drop 1 else pushed
    trace := s.trace ++ [e] }

/-- analyzeRequest: update the running metrics, bump the per-domain
request count, and fire the three per-request rules (high request volume,
repeated 4xx failures, slow response) exactly as the source does — note
that both per-domain rules test the counter value read before the
increment. -/
def analyzeRequest (s : SecurityMonitor) (domain : String) (status : ℕ)
    (responseTime : ℚ) : SecurityMonitor :=
  let s1 := { s with
    requestCount := s.requestCount + 1
    totalResponseTime := s.totalResponseTime + responseTime
    uniqueDomains := addDomain s.uniqueDomains domain }
  let s2 := if 400 ≤ status then
      { s1 with failedRequests := s1.failedRequests + 1
                httpErrors := s1.httpErrors + 1 }
    else s1
  let currentCount := s2.requestCounts domain
  let s3 := { s2 with
    requestCounts := setCount s2.requestCounts domain (currentCount + 1) }
  let s4 := if currentCount > 100 then
      createSecurityEvent
        { s3 with suspiciousPatterns := s3.suspiciousPatterns + 1 }
        ⟨.resource_abuse, .medium, domain⟩
    else s3
  let s5 := if 400 ≤ status ∧ status < 500 then
      let failedCount := s4.failedAttempts domain
      let s5a := { s4 with
        failedAttempts := setCount s4.failedAttempts domain (failedCount + 1) }
      if failedCount > 5 then
        createSecurityEvent
          { s5a with suspiciousPatterns := s5a.suspiciousPatterns + 1 }
          ⟨.failed_auth, .high, domain⟩
      else s5a
    else s4
  if responseTime > 10000 then
    createSecurityEvent
      { s5 with suspiciousPatterns := s5.suspiciousPatterns + 1 }
      ⟨.unusual_activity, .low, domain⟩
  else s5

/-- n successful (status 200), fast (100 ms) requests to one domain,
starting from the initial monitor state. -/
def runRequests (domain : String) : ℕ → SecurityMonitor
  | 0 => init
  | n + 1 => analyzeRequest (runRequests domain n) domain 200 100

/-- Number of resource_abuse events in a list. -/
def countResourceAbuse (l : List SecurityEvent) : ℕ :=
  (l.filter (fun e => e.etype = EventType.resource_abuse)).length

end SecurityMonitor

/-! ### Supporting lemmas: decision trees -/

namespace DecisionTree

variable {α : Type} [LinearOrderedField α]

lemma dedup_all_eq {l : List ℕ} {L : ℕ} (hne : l ≠ [])
    (hall : ∀ x ∈ l, x = L) : l.dedup = [L] := by
  induction l with
  | nil => exact absurd rfl hne
  | cons a t ih =>
    have ha : a = L := hall a (List.mem_cons_self a t)
    cases t with
    | nil => simp [ha]
    | cons b t' =>
      have hb : b = L := hall b (by simp)
      have hmem : a ∈ b :: t' := by
        rw [ha, ← hb]
        exact List.mem_cons_self b t'
      rw [List.dedup_cons_of_mem hmem]
      exact ih (by simp) (fun x hx => hall x (List.mem_cons_of_mem a hx))

lemma insertLe_ne_nil {β : Type} [LinearOrder β] (x : β) (l : List β) :
    insertLe x l ≠ [] := by
  cases l with
  | nil => simp [insertLe]
  | cons y ys =>
    simp only [insertLe]
    split_ifs <;> simp

lemma labelCounts_ne_nil {data : List (TrainingData α)} (h : data ≠ []) :
    labelCounts data ≠ [] := by
  unfold labelCounts
  intro hc
  rw [List.map_eq_nil] at hc
  cases hd : (data.map TrainingData.label).dedup with
  | nil =>
    rw [List.dedup_eq_nil, List.map_eq_nil] at hd
    exact h hd
  | cons a as =>
    rw [hd] at hc
    simp only [sortLe] at hc
    exact insertLe_ne_nil a (sortLe as) hc

lemma majorityClass_isSome {data : List (TrainingData α)} (h : data ≠ []) :
    ∃ L, majorityClass data = some L := by
  unfold majorityClass
  cases hc : labelCounts data with
  | nil => exact absurd hc (labelCounts_ne_nil h)
  | cons c cs => exact ⟨_, rfl⟩

lemma labelCounts_pure {data : List (TrainingData α)} {L : ℕ} (h : data ≠ [])
    (hall : ∀ s ∈ data, s.label = L) :
    labelCounts data = [(L, countLabel data L)] := by
  have hmap : ∀ x ∈ data.map TrainingData.label, x = L := by
    intro x hx
    obtain ⟨s, hs, rfl⟩ := List.mem_map.mp hx
    exact hall s hs
  have hne : data.map TrainingData.label ≠ [] := by simpa using h
  have hd : (data.map TrainingData.label).dedup = [L] := dedup_all_eq hne hmap
  unfold labelCounts
  rw [hd]
  rfl

lemma majorityClass_pure {data : List (TrainingData α)} {L : ℕ} (h : data ≠ [])
    (hall : ∀ s ∈ data, s.label = L) :
    majorityClass data = some (.entry L (countLabel data L)) := by
  unfold majorityClass
  rw [labelCounts_pure h hall]
  rfl

lemma foldMajority_not_num (data : List (TrainingData α))
    (cs : List (ℕ × ℕ)) :
    ∀ (a : JSValue), (∀ k, a ≠ .num k) → ∀ k,
      cs.foldl (fun a b =>
        if countLabel data a.parseIntVal > countLabel data b.1
        then a else .str b.1) a ≠ .num k := by
  induction cs with
  | nil =>
    intro a ha k
    simpa using ha k
  | cons c cs ih =>
    intro a ha k
    rw [List.foldl_cons]
    apply ih
    intro k'
    by_cases hgt : countLabel data a.parseIntVal > countLabel data c.1
    · rw [if_pos hgt]
      exact ha k'
    · rw [if_neg hgt]
      exact fun hcontra => JSValue.noConfusion hcontra

lemma majorityClass_not_num {data : List (TrainingData α)} {p : JSValue}
    (h : majorityClass data = some p) : ∀ k, p ≠ .num k := by
  unfold majorityClass at h
  cases hc : labelCounts data with
  | nil => rw [hc] at h; cases h
  | cons c cs =>
    rw [hc] at h
    injection h with h'
    rw [← h']
    exact foldMajority_not_num data cs (.entry c.1 c.2)
      (fun k hcontra => JSValue.noConfusion hcontra)

lemma isPure_of_all {data : List (TrainingData α)} {L : ℕ}
    (hall : ∀ s ∈ data, s.label = L) : isPure data = true := by
  cases data with
  | nil => rfl
  | cons d ds =>
    simp only [isPure, List.all_eq_true]
    intro s hs
    rw [hall s hs, hall d (List.mem_cons_self d ds)]
    simp

lemma calculateGini_lt_top {data : List (TrainingData α)} {fi : ℕ} {thr : α}
    (h : calculateGini data fi thr < ⊤) :
    splitLeft data fi thr ≠ [] ∧ splitRight data fi thr ≠ [] := by
  simp only [calculateGini] at h
  by_cases h0 : (splitLeft data fi thr).length = 0 ∨ (splitRight data fi thr).length = 0
  · rw [if_pos h0] at h
    exact absurd h (lt_irrefl _)
  · push_neg at h0
    exact ⟨fun hc => h0.1 (by rw [hc]; rfl), fun hc => h0.2 (by rw [hc]; rfl)⟩

lemma foldBest_spec (data : List (TrainingData α)) (cs : List (ℕ × α))
    (acc : Option (ℕ × α × WithTop α))
    (hacc : ∀ fi thr g, acc = some (fi, thr, g) →
      calculateGini data fi thr = g ∧ g < ⊤) :
    ∀ fi thr g,
      cs.foldl (fun best c =>
        let g := calculateGini data c.1 c.2
        if g < bestGiniOf best then some (c.1, c.2, g) else best) acc
      = some (fi, thr, g) → calculateGini data fi thr = g ∧ g < ⊤ := by
  induction cs generalizing acc with
  | nil =>
    intro fi thr g hfold
    rw [List.foldl_nil] at hfold
    exact hacc fi thr g hfold
  | cons c cs ih =>
    intro fi thr g hfold
    rw [List.foldl_cons] at hfold
    refine ih _ ?_ fi thr g hfold
    intro fi' thr' g' hstep
    by_cases hlt : calculateGini data c.1 c.2 < bestGiniOf acc
    · simp only [if_pos hlt, Option.some.injEq, Prod.mk.injEq] at hstep
      obtain ⟨rfl, rfl, rfl⟩ := hstep
      exact ⟨rfl, lt_of_lt_of_le hlt le_top⟩
    · simp only [if_neg hlt] at hstep
      exact hacc _ _ _ hstep

lemma findBestSplit_spec {data : List (TrainingData α)} {fi : ℕ} {thr : α}
    {g : WithTop α} (h : findBestSplit data = some (fi, thr, g)) :
    splitLeft data fi thr ≠ [] ∧ splitRight data fi thr ≠ [] := by
  have hspec := foldBest_spec data (candidateSplits data) none
    (fun fi' thr' g' hc => by cases hc) fi thr g h
  exact calculateGini_lt_top (hspec.1 ▸ hspec.2)

lemma train_some :
    ∀ (maxDepth : ℕ) (data : List (TrainingData α)) (minSamples : ℕ),
      data ≠ [] →
      ∃ t, train data maxDepth minSamples = some t ∧
        ∀ v, (predict t v).isSome = true := by
  intro maxDepth
  induction maxDepth with
  | zero =>
    intro data ms h
    obtain ⟨L, hL⟩ := majorityClass_isSome h
    exact ⟨.leaf L, by simp [train, hL], fun v => by simp [predict]⟩
  | succ md ih =>
    intro data ms h
    by_cases hc : data.length < ms ∨ isPure data = true
    · obtain ⟨L, hL⟩ := majorityClass_isSome h
      exact ⟨.leaf L, by simp [train, hc, hL], fun v => by simp [predict]⟩
    · cases hfs : findBestSplit data with
      | none =>
        obtain ⟨L, hL⟩ := majorityClass_isSome h
        exact ⟨.leaf L, by simp [train, hc, hfs, hL], fun v => by simp [predict]⟩
      | some s =>
        obtain ⟨fi, thr, g⟩ := s
        obtain ⟨hleft, hright⟩ := findBestSplit_spec hfs
        obtain ⟨tl, htl, hptl⟩ := ih (splitLeft data fi thr) ms hleft
        obtain ⟨tr, htr, hptr⟩ := ih (splitRight data fi thr) ms hright
        refine ⟨.node fi thr tl tr, by simp [train, hc, hfs, htl, htr], ?_⟩
        intro v
        simp only [predict]
        cases hv : v.get? fi with
        | none => exact hptr v
        | some x =>
          dsimp only
          by_cases hx : x ≤ thr
          · rw [if_pos hx]; exact hptl v
          · rw [if_neg hx]; exact hptr v

lemma train_nil (maxDepth minSamples : ℕ) :
    train ([] : List (TrainingData α)) maxDepth minSamples = none := by
  cases maxDepth with
  | zero => simp [train, majorityClass, labelCounts, sortLe]
  | succ md => simp [train, isPure, majorityClass, labelCounts, sortLe]

lemma train_pure {data : List (TrainingData α)} {L : ℕ} (maxDepth minSamples : ℕ)
    (h : data ≠ []) (hall : ∀ s ∈ data, s.label = L) :
    train data maxDepth minSamples
      = some (.leaf (.entry L (countLabel data L))) := by
  cases maxDepth with
  | zero => simp [train, majorityClass_pure h hall]
  | succ md => simp [train, isPure_of_all hall, majorityClass_pure h hall]

lemma train_zero (data : List (TrainingData α)) (minSamples : ℕ) :
    train data 0 minSamples = (majorityClass data).map DecisionTree.leaf := rfl

lemma train_succ (data : List (TrainingData α)) (maxDepth' minSamples : ℕ) :
    train data (maxDepth' + 1) minSamples
      = if data.length < minSamples ∨ isPure data then
          (majorityClass data).map DecisionTree.leaf
        else
          match findBestSplit data with
          | none => (majorityClass data).map DecisionTree.leaf
          | some (featureIndex, threshold, _) =>
            match train (splitLeft data featureIndex threshold) maxDepth' minSamples,
                  train (splitRight data featureIndex threshold) maxDepth' minSamples with
            | some l, some r => some (DecisionTree.node featureIndex threshold l r)
            | _, _ => none := rfl

lemma train_predict_not_num :
    ∀ (maxDepth : ℕ) (data : List (TrainingData α)) (minSamples : ℕ)
      (t : DecisionTree α),
      train data maxDepth minSamples = some t →
      ∀ v p, predict t v = some p → ∀ k, p ≠ .num k := by
  intro maxDepth
  induction maxDepth with
  | zero =>
    intro data ms t ht v p hp k
    rw [train_zero] at ht
    obtain ⟨q, hq, rfl⟩ := Option.map_eq_some'.mp ht
    simp only [predict, Option.some.injEq] at hp
    rw [← hp]
    exact majorityClass_not_num hq k
  | succ md ih =>
    intro data ms t ht v p hp k
    rw [train_succ] at ht
    by_cases hc : data.length < ms ∨ isPure data = true
    · rw [if_pos hc] at ht
      obtain ⟨q, hq, rfl⟩ := Option.map_eq_some'.mp ht
      simp only [predict, Option.some.injEq] at hp
      rw [← hp]
      exact majorityClass_not_num hq k
    · rw [if_neg hc] at ht
      cases hfs : findBestSplit data with
      | none =>
        rw [hfs] at ht
        obtain ⟨q, hq, rfl⟩ := Option.map_eq_some'.mp ht
        simp only [predict, Option.some.injEq] at hp
        rw [← hp]
        exact majorityClass_not_num hq k
      | some s =>
        obtain ⟨fi, thr, g⟩ := s
        rw [hfs] at ht
        dsimp only at ht
        cases htl : train (splitLeft data fi thr) md ms with
        | none =>
          rw [htl] at ht
          cases ht
        | some tl =>
          cases htr : train (splitRight data fi thr) md ms with
          | none =>
            rw [htl, htr] at ht
            cases ht
          | some tr =>
            rw [htl, htr] at ht
            injection ht with ht'
            rw [← ht'] at hp
            simp only [predict] at hp
            cases hv : v.get? fi with
            | none =>
              rw [hv] at hp
              exact ih _ ms tr htr v p hp k
            | some x =>
              rw [hv] at hp
              dsimp only at hp
              by_cases hx : x ≤ thr
              · rw [if_pos hx] at hp
                exact ih _ ms tl htl v p hp k
              · rw [if_neg hx] at hp
                exact ih _ ms tr htr v p hp k

end DecisionTree

/-! ### Supporting lemmas: random forest -/

namespace RandomForest

variable {α : Type} [LinearOrderedField α]

lemma threatCount_le (rf : RandomForest α) (v : List α) :
    threatCount rf v ≤ rf.trees.length := by
  calc threatCount rf v ≤ (treePredictions rf v).length :=
        List.length_filter_le _ _
    _ = rf.trees.length := by simp [treePredictions]

lemma threatCount_trained_eq_zero (rf : RandomForest α) (v : List α)
    (htrained : ∀ t ∈ rf.trees, ∃ data maxDepth minSamples,
      DecisionTree.train data maxDepth minSamples = some t) :
    threatCount rf v = 0 := by
  unfold threatCount
  rw [List.length_eq_zero, List.filter_eq_nil_iff]
  intro p hp
  obtain ⟨t, ht, rfl⟩ := List.mem_map.mp hp
  simp only [decide_eq_true_eq]
  intro hc
  obtain ⟨data, maxDepth, minSamples, htr⟩ := htrained t ht
  exact DecisionTree.train_predict_not_num maxDepth data minSamples t htr
    v _ hc 1 rfl

lemma prediction_mem (rf : RandomForest α) (v : List α) :
    (predict rf v).1 = 0 ∨ (predict rf v).1 = 1 := by
  unfold predict
  dsimp only
  split_ifs <;> simp

lemma confidence_bounds (rf : RandomForest α) (v : List α)
    (hlen : rf.trees.length = rf.numTrees) (hpos : 0 < rf.numTrees) :
    0 ≤ (predict rf v).2 ∧ (predict rf v).2 ≤ 1 := by
  have hN : (0 : α) < (rf.numTrees : α) := by exact_mod_cast hpos
  have htc : threatCount rf v ≤ rf.numTrees := hlen ▸ threatCount_le rf v
  have hx0 : (0 : α) ≤ (threatCount rf v : α) / (rf.numTrees : α) :=
    div_nonneg (by positivity) (le_of_lt hN)
  have hx1 : (threatCount rf v : α) / (rf.numTrees : α) ≤ 1 :=
    (div_le_one hN).mpr (by exact_mod_cast htc)
  have habs : |(threatCount rf v : α) / (rf.numTrees : α) - 0.5| ≤ 0.5 := by
    rw [abs_le]
    constructor <;> [linarith; linarith]
  constructor
  · exact mul_nonneg (abs_nonneg _) (by norm_num)
  · calc |(threatCount rf v : α) / (rf.numTrees : α) - 0.5| * 2
        ≤ 0.5 * 2 := by linarith [abs_nonneg ((threatCount rf v : α) / (rf.numTrees : α) - 0.5)]
    _ = 1 := by norm_num

lemma confidence_at_zero (rf : RandomForest α) (v : List α)
    (htc : threatCount rf v = 0) : (predict rf v).2 = 1 := by
  show |((threatCount rf v : α)) / ((rf.numTrees : α)) - 0.5| * 2 = 1
  rw [htc, Nat.cast_zero, zero_div, zero_sub, abs_neg,
    abs_of_nonneg (by norm_num : (0 : α) ≤ 0.5)]
  norm_num

lemma prediction_at_zero (rf : RandomForest α) (v : List α)
    (htc : threatCount rf v = 0) : (predict rf v).1 = 0 := by
  show (if ((threatCount rf v : α)) > ((rf.numTrees : α)) / 2
    then 1 else 0) = 0
  rw [htc, Nat.cast_zero]
  rw [if_neg (not_lt.mpr (by positivity))]

end RandomForest

/-! ### Supporting lemmas: isolation forest -/

lemma averagePathLength_nonneg (n : ℕ) : 0 ≤ averagePathLength n := by
  unfold averagePathLength
  split_ifs with h
  · exact le_refl 0
  · push_neg at h
    rcases eq_or_lt_of_le h with heq | h3
    · rw [← heq]
      norm_num
    · have hn3 : (3 : ℝ) ≤ (n : ℝ) := by exact_mod_cast h3
      have hn0 : (0 : ℝ) < (n : ℝ) := by linarith
      have hlog : Real.log 2 ≤ Real.log ((n : ℝ) - 1) :=
        Real.log_le_log (by norm_num) (by linarith)
      have hl2 : (0.6931471803 : ℝ) < Real.log 2 := Real.log_two_gt_d9
      have hfrac : ((n : ℝ) - 1) / (n : ℝ) ≤ 1 := by
        rw [div_le_one hn0]
        linarith
      have hfr2 : 2 * ((n : ℝ) - 1) / (n : ℝ) ≤ 2 := by
        rw [mul_div_assoc]
        linarith
      linarith

lemma pathLength_nonneg (t : IsolationTree) (p : List ℝ) :
    ∀ d, 0 ≤ IsolationTree.pathLength t p d := by
  induction t with
  | ext size =>
    intro d
    exact add_nonneg (Nat.cast_nonneg d) (averagePathLength_nonneg size)
  | node fi sv l r ihl ihr =>
    intro d
    simp only [IsolationTree.pathLength]
    cases p.get? fi with
    | none => exact ihr _
    | some x =>
      dsimp only
      by_cases hx : x < sv
      · rw [if_pos hx]
        exact ihl _
      · rw [if_neg hx]
        exact ihr _

namespace IsolationForest

lemma meanPathLength_nonneg (f : IsolationForest) (p : List ℝ) :
    0 ≤ meanPathLength f p := by
  unfold meanPathLength
  apply div_nonneg
  · apply List.sum_nonneg
    intro x hx
    obtain ⟨t, _, rfl⟩ := List.mem_map.mp hx
    exact pathLength_nonneg t p 0
  · exact Nat.cast_nonneg _

lemma anomalyScore_pos (f : IsolationForest) (p : List ℝ) :
    0 < anomalyScore f p :=
  Real.rpow_pos_of_pos (by norm_num) _

lemma anomalyScore_le_one (f : IsolationForest) (p : List ℝ) :
    anomalyScore f p ≤ 1 :=
  Real.rpow_le_one_of_one_le_of_nonpos (by norm_num)
    (neg_nonpos.mpr (div_nonneg (meanPathLength_nonneg f p)
      (averagePathLength_nonneg f.sampleSize)))

end IsolationForest

/-! ### Supporting lemmas: threat detection engine -/

namespace MLThreatDetection

lemma trainModels_trainingData (oracle : TrainOracle) (now : ℤ)
    (s : MLThreatDetection) :
    (trainModels oracle now s).trainingData = s.trainingData := by
  unfold trainModels
  split_ifs <;> rfl

lemma ite_pair_trainingData (oracle : TrainOracle) (now : ℤ)
    (c : Prop) [Decidable c] (s1 : MLThreatDetection) :
    ((if c then (trainModels oracle now s1, true)
      else (s1, false)).1).trainingData = s1.trainingData := by
  split_ifs with hc
  · exact trainModels_trainingData oracle now s1
  · rfl

lemma ite_pair_flag (oracle : TrainOracle) (now : ℤ)
    (c : Prop) [Decidable c] (s1 : MLThreatDetection) :
    ((if c then (trainModels oracle now s1, true)
      else (s1, false)).2 = true) ↔ c := by
  split_ifs with hc <;> simp [hc]

lemma retrain_trainingData (oracle : TrainOracle) (now : ℤ)
    (s : MLThreatDetection) (features : NetworkFeature) (isThreat : Bool) :
    (retrainWithFeedback oracle now s features isThreat).1.trainingData =
      (let appended := s.trainingData
        ++ [⟨featureVector features, if isThreat then 1 else 0⟩]
       if appended.length > 1000
       then appended.drop (appended.length - 800) else appended) := by
  show ((if _ then (trainModels oracle now _, true)
    else (_, false)).1).trainingData = _
  rw [ite_pair_trainingData]

lemma retrain_flag (oracle : TrainOracle) (now : ℤ)
    (s : MLThreatDetection) (features : NetworkFeature) (isThreat : Bool) :
    (retrainWithFeedback oracle now s features isThreat).2 = true ↔
      (retrainWithFeedback oracle now s features isThreat).1.trainingData.length
        % 50 = 0 := by
  rw [retrain_trainingData]
  show ((if _ then (trainModels oracle now _, true)
    else (_, false)).2 = true) ↔ _
  rw [ite_pair_flag]

lemma retrain_length_small (oracle : TrainOracle) (now : ℤ)
    (s : MLThreatDetection) (features : NetworkFeature) (isThreat : Bool)
    (h : s.trainingData.length + 1 ≤ 1000) :
    (retrainWithFeedback oracle now s features isThreat).1.trainingData.length
      = s.trainingData.length + 1 := by
  rw [retrain_trainingData]
  have hlen1 : (s.trainingData
      ++ [(⟨featureVector features, if isThreat then 1 else 0⟩ :
        TrainingData ℝ)]).length = s.trainingData.length + 1 := by
    simp
  simp only [hlen1]
  rw [if_neg (by omega)]
  exact hlen1

lemma runFeedback_count (oracle : TrainOracle) (now : ℤ) :
    ∀ (inputs : List (NetworkFeature × Bool)) (s : MLThreatDetection),
      s.trainingData.length + inputs.length ≤ 1000 →
      (runFeedback oracle now s inputs).2 =
        ((List.range inputs.length).map (fun i =>
          if (s.trainingData.length + i + 1) % 50 = 0 then 1 else 0)).sum := by
  intro inputs
  induction inputs with
  | nil =>
    intro s _
    simp [runFeedback]
  | cons fb rest ih =>
    intro s h
    obtain ⟨f, b⟩ := fb
    simp only [runFeedback]
    have hle : s.trainingData.length + 1 ≤ 1000 := by
      simp only [List.length_cons] at h
      omega
    have hlen := retrain_length_small oracle now s f b hle
    have hrest := ih (retrainWithFeedback oracle now s f b).1 (by
      rw [hlen]
      simp only [List.length_cons] at h
      omega)
    rw [hrest, hlen, List.length_cons, List.range_succ_eq_map]
    simp only [List.map_cons, List.sum_cons, List.map_map, Function.comp]
    congr 1
    · by_cases hf : (s.trainingData.length + 1) % 50 = 0
      · have hcond : (s.trainingData.length + 0 + 1) % 50 = 0 := by omega
        rw [if_pos ((retrain_flag oracle now s f b).mpr (by rw [hlen]; exact hf)),
          if_pos hcond]
      · have hcond : ¬ (s.trainingData.length + 0 + 1) % 50 = 0 := by omega
        have hflag : ¬ ((retrainWithFeedback oracle now s f b).2 = true) := by
          intro hc
          exact hf (by rw [← hlen]; exact (retrain_flag oracle now s f b).mp hc)
        rw [if_neg hflag, if_neg hcond]
    · congr 1
      apply List.map_congr_left
      intro i _
      have harg : s.trainingData.length + 1 + i + 1
          = s.trainingData.length + (i + 1) + 1 := by omega
      simp [Function.comp, Nat.succ_eq_add_one, harg]

end MLThreatDetection

/-! ### Supporting lemmas: security event pipeline -/

namespace SecurityMonitor

lemma analyzeRequest_ok (s : SecurityMonitor) (d : String) :
    (analyzeRequest s d 200 100).requestCounts d = s.requestCounts d + 1
    ∧ (analyzeRequest s d 200 100).trace =
      s.trace ++ (if s.requestCounts d > 100
        then [⟨.resource_abuse, .medium, d⟩] else []) := by
  have h400 : ¬ ((400 : ℕ) ≤ 200) := by norm_num
  have hslow : ¬ ((10000 : ℚ) < 100) := by norm_num
  by_cases hc : s.requestCounts d > 100
  · simp [analyzeRequest, createSecurityEvent, setCount, hc, h400, hslow]
  · simp [analyzeRequest, createSecurityEvent, setCount, hc, h400, hslow]

lemma runRequests_spec (d : String) :
    ∀ n, (runRequests d n).requestCounts d = n
      ∧ (runRequests d n).trace
        = List.replicate (n - 101) ⟨.resource_abuse, .medium, d⟩ := by
  intro n
  induction n with
  | zero => exact ⟨rfl, rfl⟩
  | succ n ih =>
    obtain ⟨hcount, htrace⟩ := ih
    have hstep := analyzeRequest_ok (runRequests d n) d
    have hrun : runRequests d (n + 1)
        = analyzeRequest (runRequests d n) d 200 100 := rfl
    constructor
    · rw [hrun, hstep.1, hcount]
    · rw [hrun, hstep.2, htrace, hcount]
      by_cases hn : n > 100
      · rw [if_pos hn, ← List.replicate_succ']
        congr 1
        omega
      · rw [if_neg hn, List.append_nil]
        congr 1
        omega

lemma countResourceAbuse_replicate (k : ℕ) (d : String) :
    countResourceAbuse
      (List.replicate k (⟨.resource_abuse, .medium, d⟩ : SecurityEvent)) = k := by
  unfold countResourceAbuse
  induction k with
  | zero => rfl
  | succ k ih => simpa [List.replicate_succ] using ih

end SecurityMonitor

/-! ### Claim theorems -/

/-- Claim C3 (amended): for every non-empty training set in which all
samples share one label L, DecisionTree.train succeeds with a single leaf
whose stored prediction is the solo Object.entries pair [String(L),
count] (the seed-less reduce returns that entry array, passed unchanged
through the as-unknown-as-number cast), and predict returns that entry
value — whose parsed label component is L but which is not the JavaScript
number L — for every input feature vector. -/
theorem c3_pure_training_predicts_label {α : Type} [LinearOrderedField α]
    (data : List (TrainingData α)) (L maxDepth minSamples : ℕ)
    (hne : data ≠ []) (hall : ∀ s ∈ data, s.label = L) :
    ∃ t, DecisionTree.train data maxDepth minSamples = some t
      ∧ (∀ v, DecisionTree.predict t v
          = some (.entry L (DecisionTree.countLabel data L)))
      ∧ (JSValue.entry L (DecisionTree.countLabel data L)).parseIntVal = L
      ∧ JSValue.entry L (DecisionTree.countLabel data L) ≠ .num L :=
  ⟨.leaf (.entry L (DecisionTree.countLabel data L)),
    DecisionTree.train_pure maxDepth minSamples hne hall,
    fun _ => rfl, rfl, fun h => JSValue.noConfusion h⟩

/-- Counterexample to C3 as stated: training on the one-sample pure set
with label 7 stores the entry pair ["7", 1] in the leaf, so predict
returns that pair — not the number 7 — for every input. -/
theorem c3_counterexample :
    DecisionTree.train ([⟨[0], 7⟩] : List (TrainingData ℚ)) 10 2
      = some (.leaf (.entry 7 1))
    ∧ DecisionTree.predict (DecisionTree.leaf (.entry 7 1)) ([] : List ℚ)
      ≠ some (.num 7) :=
  ⟨by decide, by decide⟩

/-- Witness for C3 at a concrete one-label training set. -/
theorem c3_witness :
    (([⟨[0], 7⟩] : List (TrainingData ℚ)) ≠ [])
    ∧ (∀ s ∈ ([⟨[0], 7⟩] : List (TrainingData ℚ)), s.label = 7)
    ∧ ∃ t, DecisionTree.train ([⟨[0], 7⟩] : List (TrainingData ℚ)) 10 2 = some t
      ∧ (∀ v, DecisionTree.predict t v
          = some (.entry 7 (DecisionTree.countLabel
              ([⟨[0], 7⟩] : List (TrainingData ℚ)) 7)))
      ∧ (JSValue.entry 7 (DecisionTree.countLabel
          ([⟨[0], 7⟩] : List (TrainingData ℚ)) 7)).parseIntVal = 7
      ∧ JSValue.entry 7 (DecisionTree.countLabel
          ([⟨[0], 7⟩] : List (TrainingData ℚ)) 7) ≠ .num 7 :=
  ⟨by simp, by decide,
    c3_pure_training_predicts_label [⟨[0], 7⟩] 7 10 2 (by simp) (by decide)⟩

/-- Claim C10: on every non-empty sample list, DecisionTree.train
produces a tree (every chosen split has both sides non-empty, since an
empty side has infinite Gini cost) on which predict succeeds for every
input vector; on the empty sample list, train fails (the majority-class
computation reduces an empty collection) rather than returning a tree. -/
theorem c10_train_safety {α : Type} [LinearOrderedField α]
    (data : List (TrainingData α)) (maxDepth minSamples : ℕ)
    (h : data ≠ []) :
    (∃ t, DecisionTree.train data maxDepth minSamples = some t
      ∧ ∀ v, (DecisionTree.predict t v).isSome = true)
    ∧ DecisionTree.train ([] : List (TrainingData α)) maxDepth minSamples
      = none :=
  ⟨DecisionTree.train_some maxDepth data minSamples h,
    DecisionTree.train_nil maxDepth minSamples⟩

/-- Witness for C10 at a concrete two-sample training set. -/
theorem c10_witness :
    (([⟨[0, 1], 0⟩, ⟨[2, 3], 1⟩] : List (TrainingData ℚ)) ≠ [])
    ∧ ((∃ t, DecisionTree.train
        ([⟨[0, 1], 0⟩, ⟨[2, 3], 1⟩] : List (TrainingData ℚ)) 10 2 = some t
        ∧ ∀ v, (DecisionTree.predict t v).isSome = true)
      ∧ DecisionTree.train ([] : List (TrainingData ℚ)) 10 2 = none) :=
  ⟨by simp, c10_train_safety [⟨[0, 1], 0⟩, ⟨[2, 3], 1⟩] 10 2 (by simp)⟩

/-- Claim C5: for a trained isolation forest (non-empty tree list, sample
size at least 2 so that the normalizing constant is meaningful), predict
returns the anomaly score 2 ^ (- mean path length / c(sample size)), the
score lies in (0, 1], and the anomaly flag holds exactly when the score
exceeds 0.6. -/
theorem c5_isolation_anomaly_score (f : IsolationForest) (p : List ℝ)
    (h1 : f.trees ≠ []) (h2 : 2 ≤ f.sampleSize) :
    (IsolationForest.predict f p).1
      = (2 : ℝ) ^ (-(IsolationForest.meanPathLength f p
          / averagePathLength f.sampleSize))
    ∧ 0 < (IsolationForest.predict f p).1
    ∧ (IsolationForest.predict f p).1 ≤ 1
    ∧ ((IsolationForest.predict f p).2 = true
        ↔ (IsolationForest.predict f p).1 > 0.6) := by
  refine ⟨rfl, IsolationForest.anomalyScore_pos f p,
    IsolationForest.anomalyScore_le_one f p, ?_⟩
  show (if IsolationForest.anomalyScore f p > 0.6 then true else false) = true
    ↔ IsolationForest.anomalyScore f p > 0.6
  split_ifs with h
  · simpa using h
  · simpa using h

/-- Witness for C5 at a concrete one-tree forest with sample size 128. -/
theorem c5_witness :
    ((⟨[.ext 1], 1, 128⟩ : IsolationForest).trees ≠ []
      ∧ 2 ≤ (⟨[.ext 1], 1, 128⟩ : IsolationForest).sampleSize)
    ∧ ((IsolationForest.predict ⟨[.ext 1], 1, 128⟩ []).1
        = (2 : ℝ) ^ (-(IsolationForest.meanPathLength ⟨[.ext 1], 1, 128⟩ []
            / averagePathLength (⟨[.ext 1], 1, 128⟩ : IsolationForest).sampleSize))
      ∧ 0 < (IsolationForest.predict ⟨[.ext 1], 1, 128⟩ []).1
      ∧ (IsolationForest.predict ⟨[.ext 1], 1, 128⟩ []).1 ≤ 1
      ∧ ((IsolationForest.predict ⟨[.ext 1], 1, 128⟩ []).2 = true
          ↔ (IsolationForest.predict ⟨[.ext 1], 1, 128⟩ []).1 > 0.6)) :=
  ⟨⟨by simp, by norm_num⟩,
    c5_isolation_anomaly_score ⟨[.ext 1], 1, 128⟩ [] (by simp) (by norm_num)⟩

/-- Claim C4 (amended): in the source every trained leaf's prediction is
a key string or an Object.entries pair, never the number 1, so the strict
filter p === 1 in RandomForest.predict matches no trained tree's vote:
for every forest of trained trees (of the configured size, at least one
tree) and every input vector, threatCount is 0 and predict returns
prediction 0 with confidence |0/N - 0.5| * 2 = 1 — even when the trees'
stored votes differ.  The majority-vote rule (prediction 1 exactly when
the strict-number-1 votes exceed N/2) and the confidence formula hold
degenerately, and the confidence lies in [0, 1]. -/
theorem c4_majority_vote_confidence {α : Type} [LinearOrderedField α]
    (rf : RandomForest α) (v : List α)
    (hlen : rf.trees.length = rf.numTrees) (hpos : 0 < rf.numTrees)
    (htrained : ∀ t ∈ rf.trees, ∃ data maxDepth minSamples,
      DecisionTree.train data maxDepth minSamples = some t) :
    RandomForest.threatCount rf v = 0
    ∧ (RandomForest.predict rf v).1 = 0
    ∧ (RandomForest.predict rf v).2 = 1
    ∧ ((RandomForest.predict rf v).1 = 1
        ↔ rf.numTrees < 2 * RandomForest.threatCount rf v)
    ∧ (RandomForest.predict rf v).2
        = |(RandomForest.threatCount rf v : α) / (rf.numTrees : α) - 0.5| * 2
    ∧ 0 ≤ (RandomForest.predict rf v).2
    ∧ (RandomForest.predict rf v).2 ≤ 1 := by
  have htc := RandomForest.threatCount_trained_eq_zero rf v htrained
  have hp0 := RandomForest.prediction_at_zero rf v htc
  have hc1 := RandomForest.confidence_at_zero rf v htc
  refine ⟨htc, hp0, hc1, ?_, rfl, ?_, ?_⟩
  · constructor
    · intro h1
      rw [hp0] at h1
      exact absurd h1 (by norm_num)
    · intro hlt
      rw [htc] at hlt
      omega
  · rw [hc1]
    norm_num
  · rw [hc1]

/-- A two-tree forest whose leaves were learned from different classes:
one tree trained on the pure label-1 singleton, the other on a majority-0
three-sample set at depth 0. -/
def twoLeafForest : RandomForest ℚ :=
  ⟨[.leaf (.entry 1 1), .leaf (.entry 0 2)], 2⟩

/-- Both trees of twoLeafForest are images of DecisionTree.train. -/
lemma twoLeafForest_trained :
    ∀ t ∈ twoLeafForest.trees, ∃ data maxDepth minSamples,
      DecisionTree.train data maxDepth minSamples = some t := by
  intro t ht
  rcases List.mem_cons.mp ht with h | h
  · exact ⟨[⟨[0], 1⟩], 10, 2, by rw [h]; decide⟩
  · rcases List.mem_cons.mp h with h2 | h2
    · exact ⟨[⟨[0], 0⟩, ⟨[1], 0⟩, ⟨[2], 1⟩], 0, 2, by rw [h2]; decide⟩
    · cases h2

/-- Counterexample to C4 as stated: two trained trees return different
votes (the entry pairs ["1",1] and ["0",2], learned from a pure-1 set and
a majority-0 set), yet the forest's confidence is still 1 and its
prediction 0, because neither vote is strictly equal to the number 1;
this falsifies both the vote count and "confidence = 1 iff all trees
return the same vote". -/
theorem c4_counterexample :
    DecisionTree.train ([⟨[0], 1⟩] : List (TrainingData ℚ)) 10 2
      = some (.leaf (.entry 1 1))
    ∧ DecisionTree.train
        ([⟨[0], 0⟩, ⟨[1], 0⟩, ⟨[2], 1⟩] : List (TrainingData ℚ)) 0 2
      = some (.leaf (.entry 0 2))
    ∧ DecisionTree.predict (DecisionTree.leaf (.entry 1 1)) ([] : List ℚ)
      ≠ DecisionTree.predict (DecisionTree.leaf (.entry 0 2)) ([] : List ℚ)
    ∧ RandomForest.threatCount twoLeafForest [] = 0
    ∧ (RandomForest.predict twoLeafForest []).1 = 0
    ∧ (RandomForest.predict twoLeafForest []).2 = 1 :=
  ⟨by decide, by decide, by decide, by decide,
    RandomForest.prediction_at_zero twoLeafForest [] (by decide),
    RandomForest.confidence_at_zero twoLeafForest [] (by decide)⟩

/-- Witness for C4 at the concrete two-tree forest of trained leaves. -/
theorem c4_witness :
    (twoLeafForest.trees.length = twoLeafForest.numTrees
      ∧ 0 < twoLeafForest.numTrees
      ∧ (∀ t ∈ twoLeafForest.trees, ∃ data maxDepth minSamples,
          DecisionTree.train data maxDepth minSamples = some t))
    ∧ RandomForest.threatCount twoLeafForest [] = 0
    ∧ (RandomForest.predict twoLeafForest []).1 = 0
    ∧ (RandomForest.predict twoLeafForest []).2 = 1 :=
  ⟨⟨rfl, by norm_num [twoLeafForest], twoLeafForest_trained⟩,
    (c4_majority_vote_confidence twoLeafForest [] rfl
      (by norm_num [twoLeafForest]) twoLeafForest_trained).1,
    (c4_majority_vote_confidence twoLeafForest [] rfl
      (by norm_num [twoLeafForest]) twoLeafForest_trained).2.1,
    (c4_majority_vote_confidence twoLeafForest [] rfl
      (by norm_num [twoLeafForest]) twoLeafForest_trained).2.2.1⟩

/-- Claim C6: whenever the models are not trained, detectThreats returns
the neutral prediction and leaves the engine state untouched, for every
raw-metrics input. -/
theorem c6_untrained_neutral (now : ℤ) (s : MLThreatDetection)
    (m : RawMetrics) (h : s.modelTrained = false) :
    MLThreatDetection.detectThreats now s m
      = (⟨false, 0, 0, .low, [], .ensemble⟩, s) := by
  simp [MLThreatDetection.detectThreats, h, MLThreatDetection.neutralPrediction]

/-- An engine state that has never been trained, for the C6 witness. -/
def untrainedEngine : MLThreatDetection :=
  { randomForest := ⟨[], 0⟩
    isolationForest := ⟨[], 0, 0⟩
    trainingData := []
    featureHistory := []
    isTraining := false
    modelTrained := false
    lastTrainedAt := none }

/-- An all-zero raw metrics snapshot. -/
def zeroMetrics : RawMetrics := ⟨0, 0, 0, 0, 0, 0, 0, 0, 0, 0, 0⟩

/-- Witness for C6 at a concrete untrained engine. -/
theorem c6_witness :
    untrainedEngine.modelTrained = false
    ∧ MLThreatDetection.detectThreats 0 untrainedEngine zeroMetrics
      = (⟨false, 0, 0, .low, [], .ensemble⟩, untrainedEngine) :=
  ⟨rfl, c6_untrained_neutral 0 untrainedEngine zeroMetrics rfl⟩

/-- Claim C1: for every trained engine state, detectThreats fuses the two
model outputs exactly as specified (weighted threat score, averaged
confidence with the anomaly indicator, disjunctive anomaly flag,
thresholded risk level), and the returned threat score and confidence lie
in [0, 1]. -/
theorem c1_detectThreats_trained (now : ℤ) (s : MLThreatDetection)
    (m : RawMetrics)
    (hm : s.modelTrained = true)
    (hlen : s.randomForest.trees.length = s.randomForest.numTrees)
    (hpos : 0 < s.randomForest.numTrees)
    (hiso : s.isolationForest.trees ≠ [])
    (hss : 2 ≤ s.isolationForest.sampleSize) :
    ((MLThreatDetection.detectThreats now s m).1.threatScore
      = ((s.randomForest.predict (MLThreatDetection.featureVector
            (MLThreatDetection.extractFeatures now m))).1 : ℝ) * 0.6
        + (s.isolationForest.predict (MLThreatDetection.featureVector
            (MLThreatDetection.extractFeatures now m))).1 * 0.4)
    ∧ ((MLThreatDetection.detectThreats now s m).1.confidence
      = ((s.randomForest.predict (MLThreatDetection.featureVector
            (MLThreatDetection.extractFeatures now m))).2
        + (if (s.isolationForest.predict (MLThreatDetection.featureVector
            (MLThreatDetection.extractFeatures now m))).1 > 0.6
           then (1 : ℝ) else 0)) / 2)
    ∧ ((MLThreatDetection.detectThreats now s m).1.isAnomaly = true
      ↔ (s.randomForest.predict (MLThreatDetection.featureVector
            (MLThreatDetection.extractFeatures now m))).1 = 1
        ∨ (s.isolationForest.predict (MLThreatDetection.featureVector
            (MLThreatDetection.extractFeatures now m))).2 = true)
    ∧ ((MLThreatDetection.detectThreats now s m).1.riskLevel
      = (if (MLThreatDetection.detectThreats now s m).1.threatScore > 0.8
          then .critical
         else if (MLThreatDetection.detectThreats now s m).1.threatScore > 0.6
          then .high
         else if (MLThreatDetection.detectThreats now s m).1.threatScore > 0.4
          then .medium
         else .low))
    ∧ 0 ≤ (MLThreatDetection.detectThreats now s m).1.threatScore
    ∧ (MLThreatDetection.detectThreats now s m).1.threatScore ≤ 1
    ∧ 0 ≤ (MLThreatDetection.detectThreats now s m).1.confidence
    ∧ (MLThreatDetection.detectThreats now s m).1.confidence ≤ 1 := by
  have hts : (MLThreatDetection.detectThreats now s m).1.threatScore
      = ((s.randomForest.predict (MLThreatDetection.featureVector
            (MLThreatDetection.extractFeatures now m))).1 : ℝ) * 0.6
        + (s.isolationForest.predict (MLThreatDetection.featureVector
            (MLThreatDetection.extractFeatures now m))).1 * 0.4 := by
    simp [MLThreatDetection.detectThreats, hm]
  have hcf : (MLThreatDetection.detectThreats now s m).1.confidence
      = ((s.randomForest.predict (MLThreatDetection.featureVector
            (MLThreatDetection.extractFeatures now m))).2
        + (if (s.isolationForest.predict (MLThreatDetection.featureVector
            (MLThreatDetection.extractFeatures now m))).1 > 0.6
           then (1 : ℝ) else 0)) / 2 := by
    simp [MLThreatDetection.detectThreats, hm]
  have hscorepos : 0 < (s.isolationForest.predict (MLThreatDetection.featureVector
      (MLThreatDetection.extractFeatures now m))).1 :=
    IsolationForest.anomalyScore_pos s.isolationForest _
  have hscorele : (s.isolationForest.predict (MLThreatDetection.featureVector
      (MLThreatDetection.extractFeatures now m))).1 ≤ 1 :=
    IsolationForest.anomalyScore_le_one s.isolationForest _
  have hrfmem := RandomForest.prediction_mem s.randomForest
    (MLThreatDetection.featureVector (MLThreatDetection.extractFeatures now m))
  have hrf0 : (0 : ℝ) ≤ ((s.randomForest.predict (MLThreatDetection.featureVector
      (MLThreatDetection.extractFeatures now m))).1 : ℝ) := Nat.cast_nonneg _
  have hrf1 : ((s.randomForest.predict (MLThreatDetection.featureVector
      (MLThreatDetection.extractFeatures now m))).1 : ℝ) ≤ 1 := by
    rcases hrfmem with h | h <;> rw [h] <;> norm_num
  have hcb := RandomForest.confidence_bounds s.randomForest
    (MLThreatDetection.featureVector (MLThreatDetection.extractFeatures now m))
    hlen hpos
  refine ⟨hts, hcf, ?_, ?_, ?_, ?_, ?_, ?_⟩
  · simp [MLThreatDetection.detectThreats, hm]
  · simp [MLThreatDetection.detectThreats, hm]
  · rw [hts]
    nlinarith [hscorepos, hrf0]
  · rw [hts]
    nlinarith [hscorele, hrf1, hrf0, le_of_lt hscorepos]
  · rw [hcf]
    by_cases hi : (s.isolationForest.predict (MLThreatDetection.featureVector
        (MLThreatDetection.extractFeatures now m))).1 > 0.6
    · rw [if_pos hi]
      linarith [hcb.1]
    · rw [if_neg hi]
      linarith [hcb.1]
  · rw [hcf]
    by_cases hi : (s.isolationForest.predict (MLThreatDetection.featureVector
        (MLThreatDetection.extractFeatures now m))).1 > 0.6
    · rw [if_pos hi]
      linarith [hcb.2]
    · rw [if_neg hi]
      linarith [hcb.2]

/-- Claim C2 (amended): the per-domain request-count rule first fires at
the 102nd request to a domain — the rule tests the per-domain counter
value recorded before the increment — and fires again on every subsequent
request: n requests to one domain create exactly n - 101 (truncated at 0)
resource_abuse / medium events, so 101 requests create none and 102
create exactly one. -/
theorem c2_request_count_rule (d : String) (n : ℕ) :
    (SecurityMonitor.runRequests d n).trace
      = List.replicate (n - 101) ⟨.resource_abuse, .medium, d⟩
    ∧ SecurityMonitor.countResourceAbuse
        (SecurityMonitor.runRequests d n).trace = n - 101 := by
  refine ⟨(SecurityMonitor.runRequests_spec d n).2, ?_⟩
  rw [(SecurityMonitor.runRequests_spec d n).2]
  exact SecurityMonitor.countResourceAbuse_replicate _ d

/-- Counterexample to C2 as stated: injecting 101 requests to one domain
creates no resource_abuse event at all — not exactly one — because the
rule compares the pre-increment count with 100. -/
theorem c2_counterexample :
    ¬ (SecurityMonitor.countResourceAbuse
        (SecurityMonitor.runRequests "tracker.example" 101).trace = 1) := by
  rw [(SecurityMonitor.runRequests_spec "tracker.example" 101).2,
    SecurityMonitor.countResourceAbuse_replicate]
  decide

/-- Claim C7: starting from a training set within the cap, every
retrainWithFeedback call leaves at most 1000 samples; the new training
set is the old one with the labelled sample appended, trimmed to exactly
the most recent 800 entries when the append exceeds 1000. -/
theorem c7_training_set_cap (oracle : TrainOracle) (now : ℤ)
    (s : MLThreatDetection) (features : NetworkFeature) (isThreat : Bool)
    (h : s.trainingData.length ≤ 1000) :
    (MLThreatDetection.retrainWithFeedback oracle now s features
        isThreat).1.trainingData.length ≤ 1000
    ∧ ((MLThreatDetection.retrainWithFeedback oracle now s features
          isThreat).1.trainingData
        = s.trainingData ++ [(⟨MLThreatDetection.featureVector features,
            if isThreat then 1 else 0⟩ : TrainingData ℝ)]
      ∨ (MLThreatDetection.retrainWithFeedback oracle now s features
          isThreat).1.trainingData
        = (s.trainingData ++ [(⟨MLThreatDetection.featureVector features,
            if isThreat then 1 else 0⟩ : TrainingData ℝ)]).drop
          ((s.trainingData ++ [(⟨MLThreatDetection.featureVector features,
            if isThreat then 1 else 0⟩ : TrainingData ℝ)]).length - 800))
    ∧ (1000 < (s.trainingData ++ [(⟨MLThreatDetection.featureVector features,
          if isThreat then 1 else 0⟩ : TrainingData ℝ)]).length
      → (MLThreatDetection.retrainWithFeedback oracle now s features
          isThreat).1.trainingData.length = 800) := by
  simp only [MLThreatDetection.retrain_trainingData]
  have hd1 : (s.trainingData ++ [(⟨MLThreatDetection.featureVector features,
      if isThreat then 1 else 0⟩ : TrainingData ℝ)]).length
      = s.trainingData.length + 1 := by simp
  by_cases hc : (s.trainingData ++ [(⟨MLThreatDetection.featureVector features,
      if isThreat then 1 else 0⟩ : TrainingData ℝ)]).length > 1000
  · rw [if_pos hc]
    refine ⟨?_, Or.inr rfl, ?_⟩
    · rw [List.length_drop, hd1]
      omega
    · intro _
      rw [List.length_drop, hd1]
      rw [hd1] at hc
      omega
  · rw [if_neg hc]
    exact ⟨by omega, Or.inl rfl, fun h' => absurd h' hc⟩

/-- The trivial training oracle, used for concrete witness states. -/
def trivialOracle : TrainOracle := ⟨fun _ => [], fun _ => []⟩

/-- An all-zero network feature record. -/
def zeroFeature : NetworkFeature := ⟨0, 0, 0, 0, 0, 0, 0, 0, 0, 0, 0, 0⟩

/-- Witness for C7 at a concrete engine within the cap. -/
theorem c7_witness :
    untrainedEngine.trainingData.length ≤ 1000
    ∧ (MLThreatDetection.retrainWithFeedback trivialOracle 0 untrainedEngine
        zeroFeature true).1.trainingData.length ≤ 1000 :=
  ⟨by simp [untrainedEngine],
    (c7_training_set_cap trivialOracle 0 untrainedEngine zeroFeature true
      (by simp [untrainedEngine])).1⟩

/-- Claim C8: a retrainWithFeedback call re-trains the forests exactly
when the training-set size after the append (and any trim) is a multiple
of 50; in particular, from the 250-sample bootstrap set, a sequence of 50
feedback calls triggers exactly one retraining cycle. -/
theorem c8_retrain_interval (oracle : TrainOracle) (now : ℤ)
    (s : MLThreatDetection) (inputs : List (NetworkFeature × Bool))
    (h250 : s.trainingData.length = 250) (h50 : inputs.length = 50) :
    (∀ f b, ((MLThreatDetection.retrainWithFeedback oracle now s f b).2 = true
      ↔ (MLThreatDetection.retrainWithFeedback oracle now s f b).1.trainingData.length
          % 50 = 0))
    ∧ (MLThreatDetection.runFeedback oracle now s inputs).2 = 1 := by
  constructor
  · intro f b
    exact MLThreatDetection.retrain_flag oracle now s f b
  · rw [MLThreatDetection.runFeedback_count oracle now inputs s
      (by rw [h250, h50]; norm_num)]
    rw [h250, h50]
    decide

/-- An engine state holding the 250-sample bootstrap training set, for
the C8 witness. -/
def bootstrapEngine : MLThreatDetection :=
  { randomForest := ⟨[], 50⟩
    isolationForest := ⟨[], 50, 128⟩
    trainingData := List.replicate 250 ⟨List.replicate 11 0, 0⟩
    featureHistory := []
    isTraining := false
    modelTrained := true
    lastTrainedAt := none }

/-- Witness for C8 at the concrete 250-sample engine and 50 feedback
calls. -/
theorem c8_witness :
    (bootstrapEngine.trainingData.length = 250
      ∧ (List.replicate 50 (zeroFeature, false)).length = 50)
    ∧ (MLThreatDetection.runFeedback trivialOracle 0 bootstrapEngine
        (List.replicate 50 (zeroFeature, false))).2 = 1 :=
  ⟨⟨by simp [bootstrapEngine], by simp⟩,
    (c8_retrain_interval trivialOracle 0 bootstrapEngine
      (List.replicate 50 (zeroFeature, false))
      (by simp [bootstrapEngine]) (by simp)).2⟩

/-- Claim C9 (amended): getModelStats has no side effects and reports the
current training-set size, the trained flag and the feature-history
length; the reported lastTrainingTime is the clock reading at the moment
of the query whenever the model is trained (the engine records no
training timestamp), and null when never trained. -/
theorem c9_model_stats (now : ℤ) (s : MLThreatDetection) :
    MLThreatDetection.getModelStats now s
      = ({ trainingDataSize := s.trainingData.length
           modelTrained := s.modelTrained
           featureHistorySize := s.featureHistory.length
           lastTrainingTime := if s.modelTrained then some now else none }, s) :=
  rfl

/-- An engine trained (through trainModels) at clock value 100, for the
C9 counterexample. -/
noncomputable def engineTrainedAt100 : MLThreatDetection :=
  MLThreatDetection.trainModels trivialOracle 100
    { randomForest := ⟨[], 1⟩
      isolationForest := ⟨[], 1, 128⟩
      trainingData := [⟨List.replicate 11 0, 0⟩]
      featureHistory := []
      isTraining := false
      modelTrained := false
      lastTrainedAt := none }

/-- Counterexample to C9 as stated: the engine whose only training cycle
ran at clock value 100, queried at clock value 200, reports
lastTrainingTime 200 — the query time — not the time of the most recent
training. -/
theorem c9_counterexample :
    (MLThreatDetection.getModelStats 200 engineTrainedAt100).1.lastTrainingTime
      ≠ engineTrainedAt100.lastTrainedAt := by
  have h1 : engineTrainedAt100.modelTrained = true := by
    simp [engineTrainedAt100, MLThreatDetection.trainModels]
  have h2 : engineTrainedAt100.lastTrainedAt = some 100 := by
    simp [engineTrainedAt100, MLThreatDetection.trainModels]
  simp [MLThreatDetection.getModelStats, h1, h2]

/-- A minimal trained engine state, for the C1 witness. -/
def trainedEngine : MLThreatDetection :=
  { randomForest := ⟨[.leaf (.entry 0 200)], 1⟩
    isolationForest := ⟨[.ext 1], 1, 128⟩
    trainingData := []
    featureHistory := []
    isTraining := false
    modelTrained := true
    lastTrainedAt := none }

/-- Witness for C1 at a concrete trained engine. -/
theorem c1_witness :
    (trainedEngine.modelTrained = true
      ∧ trainedEngine.randomForest.trees.length
          = trainedEngine.randomForest.numTrees
      ∧ 0 < trainedEngine.randomForest.numTrees
      ∧ trainedEngine.isolationForest.trees ≠ []
      ∧ 2 ≤ trainedEngine.isolationForest.sampleSize)
    ∧ (0 ≤ (MLThreatDetection.detectThreats 0 trainedEngine zeroMetrics).1.threatScore
      ∧ (MLThreatDetection.detectThreats 0 trainedEngine zeroMetrics).1.threatScore ≤ 1
      ∧ 0 ≤ (MLThreatDetection.detectThreats 0 trainedEngine zeroMetrics).1.confidence
      ∧ (MLThreatDetection.detectThreats 0 trainedEngine zeroMetrics).1.confidence ≤ 1) :=
  ⟨⟨rfl, rfl, by norm_num [trainedEngine], by simp [trainedEngine],
      by norm_num [trainedEngine]⟩,
    (c1_detectThreats_trained 0 trainedEngine zeroMetrics rfl rfl
      (by norm_num [trainedEngine]) (by simp [trainedEngine])
      (by norm_num [trainedEngine])).2.2.2.2⟩

